import Mathlib

/-!
Shallow embedding of the observatory dashboard's data generator, aggregation
and selection logic (src/src/App.tsx, both variants of the component, plus
src/src/components/Timeline.tsx), together with proofs about the claims on
its specification.

Modelling conventions:
* Machine randomness (`Math.random()`) is modelled by explicit draw
  parameters.  A draw of the form `Math.floor(Math.random() * k) + b` is a
  `Fin k` argument plus the offset `b`; a raw `Math.random()` value compared
  against a threshold is a `ℚ` argument.
* Numbers are `ℚ` (exact rationals) where the source uses floating point
  arithmetic that the claims depend on only through order and equality
  comparisons.  The trigonometric cluster placement (`Math.cos`/`Math.sin`)
  is abstracted into a position draw, and the d3 force simulation (library
  code, 800 ticks of floating point arithmetic) is abstracted into a list of
  post-simulation positions handed to the position-update loop, which is
  embedded exactly.
-/

/-- A per-asset process record (interface `Process`, App.tsx lines 7-14). -/
structure Process where
  id : String
  name : String
  status : String
  group : Option String
  connections : List String
  weight : Nat
deriving DecidableEq, Inhabited

/-- The functional-group name pool
`['Core', 'Network', 'Storage', 'Security', 'Monitoring']`. -/
def processGroups : List String := ["Core", "Network", "Storage", "Security", "Monitoring"]

/-- The asset type pool `['Server', 'Database', 'Service']`. -/
def typeNames : List String := ["Server", "Database", "Service"]

/-- Process identifier construction: the template literal
`proc-$\x7btag\x7d-$\x7bi\x7d-$\x7bj\x7d` (App.tsx lines 117 and 136,
and lines 816 and 831 in the dated variant). -/
def procId (tag : String) (i j : Nat) : String :=
  "proc-" ++ tag ++ "-" ++ toString i ++ "-" ++ toString j

/-- Status of the j-th problematic process:
`j % 2 === 0 ? 'Error' : 'Warning'` (App.tsx lines 112 and 811). -/
def problematicStatus (j : Nat) : String :=
  if j % 2 = 0 then "Error" else "Warning"

/-- One generated process record.  `g` is the functional-group draw
(`Math.floor(Math.random() * 5)`) and `w` the weight draw
(`Math.floor(Math.random() * 3)`, weight = draw + 1). -/
def mkProcess (tag : String) (i j : Nat) (status : String) (g : Fin 5) (w : Fin 3) : Process :=
  { id := procId tag i j
    name := processGroups.get ⟨g.val, g.isLt⟩ ++ " Process " ++ toString j
    status := status
    group := some (processGroups.get ⟨g.val, g.isLt⟩)
    connections := []
    weight := w.val + 1 }

/-- The process list of one asset: the two generation loops of App.tsx
(lines 110-146, and lines 809-838 in the dated variant).  `p` is the
problematic process count, `c` the drawn total process count; the first loop
runs `j = 0 .. p-1` creating Error/Warning processes, the second loop runs
`j = p .. c-1` creating OK processes. -/
def nodeProcesses (tag : String) (i p c : Nat) (g : Nat → Fin 5) (w : Nat → Fin 3) :
    List Process :=
  (List.range p).map (fun j => mkProcess tag i j (problematicStatus j) (g j) (w j))
    ++ (List.range' p (c - p)).map (fun j => mkProcess tag i j ("OK") (g j) (w j))

/-- The `properties` sub-record of a generated asset. -/
structure NodeProps where
  name : String
  type : String
  status : String
  processes : List Process
deriving DecidableEq

/-- A generated asset (interface `Node`, dated variant, App.tsx lines
694-708: with an observation `date`). -/
structure Node where
  id : String
  x : ℚ
  y : ℚ
  radius : ℚ
  hasAnomaly : Bool
  tag : String
  properties : NodeProps
  date : String
deriving DecidableEq

/-- The random draws consumed while generating one asset.
`adraw` is the `Math.random()` value compared against the group's anomaly
rate; `cdraw` the process-count draw (count = draw + 1, hence 1-100);
`pdraw` the problematic-count draw (count = draw + 1 when anomalous, hence
1-9); `gdraw`/`wdraw` the per-process group and weight draws; `tdraw` the
asset-type draw; `pos` the asset position resulting from the subcluster /
angle / distance computation (floating point trigonometry, abstracted). -/
structure AssetDraws where
  adraw : ℚ
  cdraw : Fin 100
  pdraw : Fin 9
  gdraw : Nat → Fin 5
  wdraw : Nat → Fin 3
  tdraw : Fin 3
  pos : ℚ × ℚ

/-- `problematicProcessCount = hasAnomaly ? Math.floor(Math.random() * 9) + 1 : 0`
(App.tsx lines 107 and 807). -/
def problematicCountOf (hasAnomaly : Bool) (p : Fin 9) : Nat :=
  if hasAnomaly then p.val + 1 else 0

/-- One generated asset of the dated variant (App.tsx lines 790-855):
`hasAnomaly = Math.random() < config.anomalyRate`, id template
`$\x7btag\x7d-$\x7bdate\x7d-$\x7bi\x7d`, name `$\x7btag\x7d Asset $\x7bi\x7d`,
status `'Warning'`/`'Active'`, and the process list from `nodeProcesses`. -/
def mkNode (tag date : String) (rate : ℚ) (i : Nat) (d : AssetDraws) : Node :=
  { id := tag ++ "-" ++ date ++ "-" ++ toString i
    x := d.pos.1
    y := d.pos.2
    radius := 5
    hasAnomaly := decide (d.adraw < rate)
    tag := tag
    properties :=
      { name := tag ++ " Asset " ++ toString i
        type := typeNames.get ⟨d.tdraw.val, d.tdraw.isLt⟩
        status := if d.adraw < rate then "Warning" else "Active"
        processes :=
          nodeProcesses tag i (problematicCountOf (decide (d.adraw < rate)) d.pdraw)
            (d.cdraw.val + 1) d.gdraw d.wdraw }
    date := date }

/-- The group table (App.tsx lines 759-765): name, baseline count, anomaly
rate (0.08, 0.05, 0.03, 0.02, 0.1 as exact rationals). -/
def groupsTable : List (String × Nat × ℚ) :=
  [("Production", 568, mkRat 8 100), ("Staging", 384, mkRat 5 100),
   ("Development", 287, mkRat 3 100), ("Testing", 133, mkRat 2 100),
   ("Monitoring", 50, mkRat 1 10)]

/-- `Object.values(groups).reduce((sum, g) => sum + g.count, 0)`
(App.tsx line 773). -/
def currentTotal : Nat := groupsTable.foldl (fun s g => s + g.2.1) 0

/-- `Math.floor(Math.random() * (1455 - 1410 + 1)) + 1410` (App.tsx
line 770): the per-day total asset count. -/
def totalNodesForDate (t : Fin 46) : Nat := 1410 + t.val

/-- JavaScript's `Math.round`: half-up rounding, `Math.round(x) = floor(x + 0.5)`. -/
def roundHalfUp (q : ℚ) : ℤ := ⌊q + 1 / 2⌋

/-- `scaleFactor = totalNodesForDate / currentTotal` (App.tsx line 774). -/
def scaleFactor (t : Fin 46) : ℚ :=
  (totalNodesForDate t : ℚ) / (currentTotal : ℚ)

/-- `scaledCount = Math.round(config.count * scaleFactor)` (App.tsx line 779). -/
def scaledCount (count : Nat) (t : Fin 46) : ℤ :=
  roundHalfUp ((count : ℚ) * scaleFactor t)

/-- Number of loop iterations of `for (let i = 0; i < scaledCount; i++)`:
the non-negative part of `scaledCount`. -/
def scaledCountN (count : Nat) (t : Fin 46) : Nat := (scaledCount count t).toNat

/-- The asset list generated for one group on one date (the inner loop of
App.tsx lines 790-855). -/
def genGroupAssets (tag date : String) (rate : ℚ) (n : Nat) (dr : Nat → AssetDraws) :
    List Node :=
  (List.range n).map (fun i => mkNode tag date rate i (dr i))

/-- The complete dated generator `generateNodes` (App.tsx lines 757-860):
for each date, draw a per-day total, scale each group's count and generate
the group's assets.  `t` gives the per-date total draw and `dr` the per-date,
per-group, per-asset draws. -/
def generateNodes (dates : List String) (t : String → Fin 46)
    (dr : String → String → Nat → AssetDraws) : List Node :=
  dates.flatMap fun date =>
    groupsTable.flatMap fun g =>
      genGroupAssets g.1 date g.2.2 (scaledCountN g.2.1 (t date)) (dr date g.1)

/-- `node.properties.processes.filter(p => p.status !== 'OK').length`:
the non-OK process count of an asset (App.tsx lines 319, 972 etc.). -/
def nonOkCount (n : Node) : Nat :=
  (n.properties.processes.filter (fun p => p.status != "OK")).length

/-- The bin-click reduction (App.tsx lines 317-322 and 970-975):
`d.reduce((max, node) => currentIssues > maxIssues ? node : max, d[0])`.
JavaScript's `reduce` with an initial value visits every element, including
`d[0]` itself, which the fold from `head` reproduces. -/
def nodeWithMostIssues (bin : List Node) (h : bin ≠ []) : Node :=
  bin.foldl (fun mx nd => if nonOkCount nd > nonOkCount mx then nd else mx) (bin.head h)

/-- The reactive state of the dated component: generated nodes, current
date filter, selected asset and expanded process id. -/
structure UIState where
  nodes : List Node
  currentDate : String
  selectedNode : Option Node
  expandedProcess : Option String

/-- `filteredData` (App.tsx lines 738-741): empty when no date is set,
otherwise the nodes whose date equals the current date. -/
def filteredData (s : UIState) : List Node :=
  if s.currentDate = "" then [] else s.nodes.filter (fun n => n.date == s.currentDate)

/-- The date-change event (`onDateChange=setCurrentDate`, Timeline.tsx):
only the current date changes; no other state is touched. -/
def onDateChange (s : UIState) (d : String) : UIState :=
  { s with currentDate := d }

/-- The hexbin click handler (App.tsx lines 966-979): select the member
with the most suspicious processes. -/
def onHexClick (s : UIState) (bin : List Node) (h : bin ≠ []) : UIState :=
  { s with selectedNode := some (nodeWithMostIssues bin h) }

/-- The auto-expand effect (App.tsx lines 1030-1041): when an anomalous
asset is selected, expand its first non-OK process; when the selection is
empty or healthy, collapse.  When an anomalous selection has no non-OK
process the effect leaves the previous expansion (`prev`) in place. -/
def applyAutoExpand (selected : Option Node) (prev : Option String) : Option String :=
  match selected with
  | some n =>
      if n.hasAnomaly then
        match n.properties.processes.find? (fun p => p.status != "OK") with
        | some p => some p.id
        | none => prev
      else none
  | none => none

/-- The asset counter (App.tsx line 1277): `filteredData.length`. -/
def totalCountDisplay (s : UIState) : Nat := (filteredData s).length

/-- Spec-side definition (§4.3): the highest non-OK process count among a
cell's members. -/
def maxNonOkCount (bin : List Node) : Nat :=
  bin.foldr (fun nd m => Nat.max (nonOkCount nd) m) 0

/-- Spec-side definition (§4.3, §8): the first member, in iteration order,
whose non-OK process count is maximal. -/
def firstMemberWithMaxIssues (bin : List Node) : Option Node :=
  bin.find? (fun nd => nonOkCount nd == maxNonOkCount bin)

/-- An asset of the undated variant (interface `Node`, App.tsx lines
34-47: no `date` field). -/
structure Node1 where
  id : String
  x : ℚ
  y : ℚ
  radius : ℚ
  hasAnomaly : Bool
  tag : String
  properties : NodeProps
deriving DecidableEq

/-- An entry of `allNodes` as mutated by the d3 force simulation:
position and anomaly flag (App.tsx line 96). -/
structure SimNode where
  x : ℚ
  y : ℚ
  hasAnomaly : Bool
deriving DecidableEq

/-- `node.hasAnomaly ? 60 : 25` (App.tsx lines 184 and 198). -/
def collisionRadius (hasAnomaly : Bool) : ℚ :=
  if hasAnomaly then 60 else 25

/-- `Math.max(m, Math.min(dimension - m, v))` (App.tsx lines 199-200). -/
def clampCoord (m dimension v : ℚ) : ℚ :=
  max m (min (dimension - m) v)

/-- One iteration of the post-simulation update loop (App.tsx lines
194-202): look up, in the `nodes` array, an entry whose anomaly flag and
(pre-simulation) coordinates equal the simulated node's current coordinates;
if found, overwrite its position with the clamped simulated position. -/
def updateOne (w h : ℚ) (s : SimNode) (ns : List Node1) : List Node1 :=
  match ns.findIdx? (fun n => n.hasAnomaly == s.hasAnomaly && n.x == s.x && n.y == s.y) with
  | some k =>
      match ns.get? k with
      | some n =>
          ns.set k
            { n with
              x := clampCoord (collisionRadius s.hasAnomaly) w s.x
              y := clampCoord (collisionRadius s.hasAnomaly) h s.y }
      | none => ns
  | none => ns

/-- The whole `allNodes.forEach` declutter-update pass (App.tsx lines
194-202).  `sim` is the list of post-simulation node states produced by the
800 ticks of the d3 force simulation (library floating point code,
abstracted as an arbitrary outcome). -/
def updateFromSim (w h : ℚ) (nodes : List Node1) (sim : List SimNode) : List Node1 :=
  sim.foldl (fun ns s => updateOne w h s ns) nodes

/-- A node of the expanded process's dependency graph (App.tsx lines
1084-1090). -/
structure GraphNode where
  id : String
  name : String
  status : String
  group : String
deriving DecidableEq

/-- A link of the dependency graph (App.tsx lines 1099-1103). -/
structure GraphLink where
  source : String
  target : String
  value : ℚ
deriving DecidableEq

/-- `Math.floor(Math.random() * 6) + 15` (App.tsx line 1084): 15-20 nodes. -/
def graphNodeCount (nd : Fin 6) : Nat := nd.val + 15

/-- `Math.random() > 0.8 ? 'Error' : Math.random() > 0.6 ? 'Warning' : 'OK'`
(App.tsx line 1088); two independent draws `r1`, `r2`. -/
def graphStatus (r1 r2 : ℚ) : String :=
  if r1 > mkRat 8 10 then "Error" else if r2 > mkRat 6 10 then "Warning" else "OK"

/-- One dependency-graph node (App.tsx lines 1085-1090). -/
def mkGraphNode (i : Nat) (r1 r2 : ℚ) (g : Fin 5) : GraphNode :=
  { id := "node-" ++ toString i
    name := "Component " ++ toString i
    status := graphStatus r1 r2
    group := processGroups.get ⟨g.val, g.isLt⟩ }

/-- The generated dependency-graph node list (App.tsx lines 1084-1090). -/
def graphNodes (nd : Fin 6) (r1 r2 : Nat → ℚ) (g : Nat → Fin 5) : List GraphNode :=
  (List.range (graphNodeCount nd)).map (fun i => mkGraphNode i (r1 i) (r2 i) (g i))

/-- The links attempted from node `i` (inner loop, App.tsx lines 1095-1105):
`connectionCount = Math.floor(Math.random() * 3) + 1` attempts (`c` + 1),
each picking a random target index `t j`; an attempt whose target equals `i`
itself pushes nothing.  `v j` is the raw value draw
(`value = Math.random() * 3 + 1`). -/
def linksFrom (i : Nat) (c : Fin 3) (t : Nat → Nat) (v : Nat → ℚ) : List GraphLink :=
  (List.range (c.val + 1)).filterMap fun j =>
    if t j ≠ i then
      some { source := "node-" ++ toString i
             target := "node-" ++ toString (t j)
             value := v j * 3 + 1 }
    else none

/-- The full generated link list (App.tsx lines 1093-1106). -/
def graphLinks (nd : Fin 6) (c : Nat → Fin 3) (t : Nat → Nat → Nat) (v : Nat → Nat → ℚ) :
    List GraphLink :=
  (List.range (graphNodeCount nd)).flatMap fun i => linksFrom i (c i) (t i) (v i)

/-- The data generated by one `renderProcessGraph(processId, containerId)`
call (App.tsx lines 1043-1106): the node and link lists.  The `processId`
argument is carried to make its non-use — the generation reads only the
random draws, never the process or its `connections` — a provable fact. -/
def renderProcessGraphData (processId : String) (nd : Fin 6) (r1 r2 : Nat → ℚ)
    (g : Nat → Fin 5) (c : Nat → Fin 3) (t : Nat → Nat → Nat) (v : Nat → Nat → ℚ) :
    List GraphNode × List GraphLink :=
  (graphNodes nd r1 r2 g, graphLinks nd c t v)

/-- Number of outgoing edges of graph node `i`: links whose source is that
node's id. -/
def outDegree (links : List GraphLink) (i : Nat) : Nat :=
  (links.filter (fun l => l.source == "node-" ++ toString i)).length

/-- Modelled from the spec: one step of the d3-hexbin grouping (the
`hexbin(points)` call at App.tsx line 888 is d3-hexbin library code, not in
this repository).  Per §4.3 the aggregator "buckets point positions into
hexagonal cells of fixed radius"; the cell-assignment function `key` is kept
abstract (its exact value involves irrational hex geometry), and the
grouping appends each point to the bin of its cell, creating the bin on
first encounter — exactly the library's behaviour for any cell function. -/
def addPoint {K : Type} [DecidableEq K] (key : Node → K)
    (acc : List (K × List Node)) (p : Node) : List (K × List Node) :=
  match acc with
  | [] => [(key p, [p])]
  | kb :: rest =>
      if kb.1 = key p then (kb.1, kb.2 ++ [p]) :: rest
      else kb :: addPoint key rest p

/-- Modelled from the spec: the d3-hexbin aggregation of a point list —
the fold of `addPoint` over the points in order (see `addPoint`). -/
def hexbinBins {K : Type} [DecidableEq K] (key : Node → K) (points : List Node) :
    List (K × List Node) :=
  points.foldl (addPoint key) []

/-- Concrete draw bundle used by witnesses: anomalous (draw 0 is below
every group rate), one process, all indices 0. -/
def draws0 : AssetDraws :=
  { adraw := 0, cdraw := 0, pdraw := 0, gdraw := fun _ => 0, wdraw := fun _ => 0,
    tdraw := 0, pos := (0, 0) }

/-- Concrete draw bundle differing from `draws0` in the weight draw. -/
def draws1 : AssetDraws :=
  { draws0 with wdraw := fun _ => 1 }

/-- Concrete per-run draw function: `draws1` on the second date, `draws0`
elsewhere. -/
def cxDr : String → String → Nat → AssetDraws :=
  fun date _ _ => if date = "2024-01-02" then draws1 else draws0

/-- The index-0 Production asset of the first date in the concrete run. -/
def cxA1 : Node := mkNode ("Production") ("2024-01-01") (mkRat 8 100) 0 draws0

/-- The index-0 Production asset of the second date in the concrete run. -/
def cxA2 : Node := mkNode ("Production") ("2024-01-02") (mkRat 8 100) 0 draws1

/-- The single process of `cxA1` (weight 1). -/
def cxP1 : Process := mkProcess ("Production") 0 0 (problematicStatus 0) 0 0

/-- The single process of `cxA2` (weight 2). -/
def cxP2 : Process := mkProcess ("Production") 0 0 (problematicStatus 0) 0 1

/-- A concrete undated asset sitting at x = 16 (closer to the left edge
than the anomalous collision radius 60) in a 200 by 200 viewport. -/
def cxNode1 : Node1 :=
  { id := "Production-0", x := 16, y := 100, radius := 5, hasAnomaly := true,
    tag := "Production",
    properties :=
      { name := "Production Asset 0", type := "Server", status := "Warning",
        processes := [] } }

/-- The post-simulation state of that asset: the 800 force-simulation ticks
moved it to the viewport centre. -/
def cxSim : SimNode := { x := 100, y := 100, hasAnomaly := true }

/-- A concrete UI state with one dated asset, which is selected and
displayed under its own date filter. -/
def cxState : UIState :=
  { nodes := [cxA1], currentDate := "2024-01-01", selectedNode := some cxA1,
    expandedProcess := none }

/-- An empty UI state (fresh component: no nodes, no date, no selection). -/
def s0 : UIState :=
  { nodes := [], currentDate := "", selectedNode := none, expandedProcess := none }

/-- A concrete anomalous bin member (one non-OK process). -/
def cxBinA : Node := mkNode ("T") ("D") 1 0 draws0

/-- A concrete healthy bin member (rate 0, zero non-OK processes). -/
def cxBinB : Node := mkNode ("T") ("D") 0 1 draws0

/-! ### Helper lemmas about process generation -/

set_option maxRecDepth 10000 in
theorem natToString_injOn100 :
    ∀ a, a < 100 → ∀ b, b < 100 → toString a = toString b → a = b := by decide

theorem string_append_left_cancel {s t₁ t₂ : String} (h : s ++ t₁ = s ++ t₂) : t₁ = t₂ := by
  apply String.ext
  have h2 := congrArg String.data h
  rw [String.data_append, String.data_append] at h2
  exact List.append_cancel_left h2

theorem procId_injOn100 (tag : String) (i : Nat) {j₁ j₂ : Nat} (h₁ : j₁ < 100) (h₂ : j₂ < 100)
    (h : procId tag i j₁ = procId tag i j₂) : j₁ = j₂ := by
  unfold procId at h
  exact natToString_injOn100 j₁ h₁ j₂ h₂ (string_append_left_cancel h)

theorem filter_nonOk_nodeProcesses (tag : String) (i p c : Nat) (g : Nat → Fin 5)
    (w : Nat → Fin 3) :
    (nodeProcesses tag i p c g w).filter (fun pr => pr.status != "OK")
      = (List.range p).map (fun j => mkProcess tag i j (problematicStatus j) (g j) (w j)) := by
  unfold nodeProcesses
  rw [List.filter_append, List.filter_map, List.filter_map]
  have h1 : (List.range p).filter
      ((fun pr : Process => pr.status != "OK")
        ∘ fun j => mkProcess tag i j (problematicStatus j) (g j) (w j)) = List.range p := by
    apply List.filter_eq_self.mpr
    intro j _
    show (problematicStatus j != "OK") = true
    unfold problematicStatus
    by_cases hj : j % 2 = 0 <;> simp [hj]
  have h2 : (List.range' p (c - p)).filter
      ((fun pr : Process => pr.status != "OK")
        ∘ fun j => mkProcess tag i j ("OK") (g j) (w j)) = [] := by
    apply List.filter_eq_nil_iff.mpr
    intro j _
    show ¬ ((("OK" : String) != "OK") = true)
    decide
  rw [h1, h2, List.map_nil, List.append_nil]

theorem filter_ok_nodeProcesses (tag : String) (i p c : Nat) (g : Nat → Fin 5)
    (w : Nat → Fin 3) :
    (nodeProcesses tag i p c g w).filter (fun pr => pr.status == "OK")
      = (List.range' p (c - p)).map (fun j => mkProcess tag i j ("OK") (g j) (w j)) := by
  unfold nodeProcesses
  rw [List.filter_append, List.filter_map, List.filter_map]
  have h1 : (List.range p).filter
      ((fun pr : Process => pr.status == "OK")
        ∘ fun j => mkProcess tag i j (problematicStatus j) (g j) (w j)) = [] := by
    apply List.filter_eq_nil_iff.mpr
    intro j _
    show ¬ ((problematicStatus j == "OK") = true)
    unfold problematicStatus
    by_cases hj : j % 2 = 0 <;> simp [hj]
  have h2 : (List.range' p (c - p)).filter
      ((fun pr : Process => pr.status == "OK")
        ∘ fun j => mkProcess tag i j ("OK") (g j) (w j)) = List.range' p (c - p) := by
    apply List.filter_eq_self.mpr
    intro j _
    show ((("OK" : String) == "OK") = true)
    decide
  rw [h1, h2, List.map_nil, List.nil_append]

theorem length_nodeProcesses (tag : String) (i p c : Nat) (g : Nat → Fin 5) (w : Nat → Fin 3) :
    (nodeProcesses tag i p c g w).length = p + (c - p) := by
  unfold nodeProcesses
  rw [List.length_append, List.length_map, List.length_map, List.length_range,
    List.length_range']

theorem find?_nonOk_nodeProcesses (tag : String) (i p c : Nat) (g : Nat → Fin 5)
    (w : Nat → Fin 3) (hp : 1 ≤ p) :
    (nodeProcesses tag i p c g w).find? (fun pr => pr.status != "OK")
      = some (mkProcess tag i 0 ("Error") (g 0) (w 0)) := by
  obtain ⟨k, rfl⟩ : ∃ k, p = k + 1 := ⟨p - 1, by omega⟩
  unfold nodeProcesses
  rw [List.range_succ_eq_map, List.map_cons, List.cons_append]
  rw [List.find?_cons_of_pos]
  · rfl
  · show (problematicStatus 0 != "OK") = true
    decide

theorem nodup_ids_nodeProcesses (tag : String) (i p c : Nat) (hp : p ≤ 100) (hc : c ≤ 100)
    (g : Nat → Fin 5) (w : Nat → Fin 3) :
    ((nodeProcesses tag i p c g w).map (fun pr => pr.id)).Nodup := by
  unfold nodeProcesses
  rw [List.map_append, List.map_map, List.map_map]
  have e1 : ((fun pr : Process => pr.id)
      ∘ fun j => mkProcess tag i j (problematicStatus j) (g j) (w j))
        = fun j => procId tag i j := rfl
  have e2 : ((fun pr : Process => pr.id)
      ∘ fun j => mkProcess tag i j ("OK") (g j) (w j))
        = fun j => procId tag i j := rfl
  rw [e1, e2, List.nodup_append]
  have hmem1 : ∀ j ∈ List.range p, j < 100 := fun j hj =>
    lt_of_lt_of_le (List.mem_range.mp hj) hp
  have hmem2 : ∀ j ∈ List.range' p (c - p), p ≤ j ∧ j < 100 := by
    intro j hj
    obtain ⟨k, hk, rfl⟩ := List.mem_range'.mp hj
    omega
  refine ⟨?_, ?_, ?_⟩
  · exact List.Nodup.map_on
      (fun x hx y hy hxy => procId_injOn100 tag i (hmem1 x hx) (hmem1 y hy) hxy)
      (List.nodup_range p)
  · exact List.Nodup.map_on
      (fun x hx y hy hxy => procId_injOn100 tag i (hmem2 x hx).2 (hmem2 y hy).2 hxy)
      (List.nodup_range' p (c - p))
  · rw [List.disjoint_left]
    rintro a ha hb
    obtain ⟨x, hx, rfl⟩ := List.mem_map.mp ha
    obtain ⟨y, hy, he⟩ := List.mem_map.mp hb
    have hxy := procId_injOn100 tag i (hmem2 y hy).2 (hmem1 x hx) he
    have := List.mem_range.mp hx
    have := (hmem2 y hy).1
    omega

theorem processes_mkNode (tag date : String) (rate : ℚ) (i : Nat) (d : AssetDraws) :
    (mkNode tag date rate i d).properties.processes
      = nodeProcesses tag i (problematicCountOf (decide (d.adraw < rate)) d.pdraw)
          (d.cdraw.val + 1) d.gdraw d.wdraw := rfl

theorem hasAnomaly_mkNode (tag date : String) (rate : ℚ) (i : Nat) (d : AssetDraws) :
    (mkNode tag date rate i d).hasAnomaly = decide (d.adraw < rate) := rfl

theorem nonOkCount_mkNode (tag date : String) (rate : ℚ) (i : Nat) (d : AssetDraws) :
    nonOkCount (mkNode tag date rate i d)
      = problematicCountOf ((mkNode tag date rate i d).hasAnomaly) d.pdraw := by
  unfold nonOkCount
  rw [processes_mkNode, filter_nonOk_nodeProcesses, List.length_map, List.length_range,
    hasAnomaly_mkNode]

/-! ### The bin-click argmax reduction -/

theorem foldl_pick_max {α : Type} (f : α → Nat) :
    ∀ (l : List α) (a : α),
      (a :: l).find? (fun x => f x == (a :: l).foldr (fun x m => Nat.max (f x) m) 0)
        = some (l.foldl (fun mx x => if f x > f mx then x else mx) a) := by
  intro l
  induction l with
  | nil =>
      intro a
      rw [List.foldl_nil]
      apply List.find?_cons_of_pos
      simp
  | cons b tl ih =>
      intro a
      rw [List.foldl_cons]
      by_cases hab : f a < f b
      · have hgab : (if f b > f a then b else a) = b := if_pos hab
        have hfb : f b ≤ (b :: tl).foldr (fun x m => Nat.max (f x) m) 0 := by
          rw [List.foldr_cons]; exact Nat.le_max_left _ _
        have hM2 : (a :: b :: tl).foldr (fun x m => Nat.max (f x) m) 0
            = (b :: tl).foldr (fun x m => Nat.max (f x) m) 0 := by
          rw [List.foldr_cons]
          exact Nat.max_eq_right (le_trans (Nat.le_of_lt hab) hfb)
        have hpa : ¬ ((fun x => f x
            == (a :: b :: tl).foldr (fun x m => Nat.max (f x) m) 0) a = true) := by
          show ¬ ((f a == (a :: b :: tl).foldr (fun x m => Nat.max (f x) m) 0) = true)
          rw [hM2]
          have hlt : f a < (b :: tl).foldr (fun x m => Nat.max (f x) m) 0 :=
            lt_of_lt_of_le hab hfb
          simp only [beq_iff_eq]
          exact Nat.ne_of_lt hlt
        rw [@List.find?_cons_of_neg α
          (fun x => f x == (a :: b :: tl).foldr (fun x m => Nat.max (f x) m) 0) a
          (b :: tl) hpa, hgab, hM2]
        exact ih b
      · have hba : f b ≤ f a := Nat.le_of_not_lt hab
        have hgab : (if f b > f a then b else a) = a := if_neg hab
        rw [hgab]
        have hMeq : (a :: b :: tl).foldr (fun x m => Nat.max (f x) m) 0
            = (a :: tl).foldr (fun x m => Nat.max (f x) m) 0 := by
          simp only [List.foldr_cons]
          rcases Nat.le_total (f b) (tl.foldr (fun x m => Nat.max (f x) m) 0) with h | h
          · exact congrArg (Nat.max (f a)) (Nat.max_eq_right h)
          · show f a ⊔ (f b ⊔ tl.foldr (fun x m => Nat.max (f x) m) 0)
              = f a ⊔ tl.foldr (fun x m => Nat.max (f x) m) 0
            rw [Nat.max_eq_left h, Nat.max_eq_left hba, Nat.max_eq_left (le_trans h hba)]
        rw [hMeq]
        have iha := ih a
        by_cases hfa : ((fun x => f x
            == (a :: tl).foldr (fun x m => Nat.max (f x) m) 0) a = true)
        · rw [@List.find?_cons_of_pos α
            (fun x => f x == (a :: tl).foldr (fun x m => Nat.max (f x) m) 0) a
            (b :: tl) hfa]
          rw [@List.find?_cons_of_pos α
            (fun x => f x == (a :: tl).foldr (fun x m => Nat.max (f x) m) 0) a
            tl hfa] at iha
          exact iha
        · rw [@List.find?_cons_of_neg α
            (fun x => f x == (a :: tl).foldr (fun x m => Nat.max (f x) m) 0) a
            (b :: tl) hfa]
          rw [@List.find?_cons_of_neg α
            (fun x => f x == (a :: tl).foldr (fun x m => Nat.max (f x) m) 0) a
            tl hfa] at iha
          have hfa2 : f a ≤ (a :: tl).foldr (fun x m => Nat.max (f x) m) 0 := by
            rw [List.foldr_cons]; exact Nat.le_max_left _ _
          have hfalt : f a < (a :: tl).foldr (fun x m => Nat.max (f x) m) 0 :=
            lt_of_le_of_ne hfa2 (by simpa using hfa)
          have hfb2 : ¬ ((fun x => f x
              == (a :: tl).foldr (fun x m => Nat.max (f x) m) 0) b = true) := by
            show ¬ ((f b == (a :: tl).foldr (fun x m => Nat.max (f x) m) 0) = true)
            have hblt : f b < (a :: tl).foldr (fun x m => Nat.max (f x) m) 0 :=
              lt_of_le_of_lt hba hfalt
            simp only [beq_iff_eq]
            exact Nat.ne_of_lt hblt
          rw [@List.find?_cons_of_neg α
            (fun x => f x == (a :: tl).foldr (fun x m => Nat.max (f x) m) 0) b
            tl hfb2]
          exact iha

/-! ### Hexbin grouping invariants -/

theorem addPoint_keys {K : Type} [DecidableEq K] (key : Node → K) :
    ∀ (acc : List (K × List Node)) (p : Node) (k : K),
      k ∈ (addPoint key acc p).map Prod.fst → k ∈ acc.map Prod.fst ∨ k = key p := by
  intro acc
  induction acc with
  | nil =>
      intro p k hk
      simp only [addPoint, List.map_cons, List.map_nil] at hk
      rcases List.mem_cons.mp hk with h | h
      · exact Or.inr h
      · exact absurd h (List.not_mem_nil k)
  | cons kb0 rest ih =>
      intro p k hk
      simp only [addPoint] at hk
      by_cases h : kb0.1 = key p
      · rw [if_pos h, List.map_cons] at hk
        rcases List.mem_cons.mp hk with h1 | h1
        · exact Or.inl (by rw [List.map_cons]; exact List.mem_cons.mpr (Or.inl h1))
        · exact Or.inl (by rw [List.map_cons]; exact List.mem_cons.mpr (Or.inr h1))
      · rw [if_neg h, List.map_cons] at hk
        rcases List.mem_cons.mp hk with h1 | h1
        · exact Or.inl (by rw [List.map_cons]; exact List.mem_cons.mpr (Or.inl h1))
        · rcases ih p k h1 with h2 | h2
          · exact Or.inl (by rw [List.map_cons]; exact List.mem_cons.mpr (Or.inr h2))
          · exact Or.inr h2

theorem addPoint_good {K : Type} [DecidableEq K] (key : Node → K) :
    ∀ (acc : List (K × List Node)) (p : Node),
      (∀ kb ∈ acc, kb.2 ≠ [] ∧ ∀ q ∈ kb.2, key q = kb.1) → (acc.map Prod.fst).Nodup →
      (∀ kb ∈ addPoint key acc p, kb.2 ≠ [] ∧ ∀ q ∈ kb.2, key q = kb.1)
        ∧ ((addPoint key acc p).map Prod.fst).Nodup := by
  intro acc
  induction acc with
  | nil =>
      intro p _ _
      constructor
      · intro kb hkb
        simp only [addPoint] at hkb
        rcases List.mem_cons.mp hkb with rfl | h
        · refine ⟨List.cons_ne_nil p [], ?_⟩
          intro q hq
          rcases List.mem_cons.mp hq with rfl | h
          · rfl
          · exact absurd h (List.not_mem_nil q)
        · exact absurd h (List.not_mem_nil kb)
      · simp [addPoint]
  | cons kb0 rest ih =>
      intro p hgood hnd
      rw [List.map_cons, List.nodup_cons] at hnd
      by_cases h : kb0.1 = key p
      · constructor
        · intro kb hkb
          simp only [addPoint, if_pos h] at hkb
          rcases List.mem_cons.mp hkb with rfl | hmem
          · refine ⟨by simp, ?_⟩
            intro q hq
            rcases List.mem_append.mp hq with h1 | h1
            · exact (hgood kb0 (List.mem_cons_self kb0 rest)).2 q h1
            · rcases List.mem_cons.mp h1 with rfl | h2
              · exact h.symm
              · exact absurd h2 (List.not_mem_nil q)
          · exact hgood kb (List.mem_cons_of_mem kb0 hmem)
        · simp only [addPoint, if_pos h, List.map_cons]
          rw [List.nodup_cons]
          exact ⟨hnd.1, hnd.2⟩
      · have ihres := ih p (fun kb hkb => hgood kb (List.mem_cons_of_mem kb0 hkb)) hnd.2
        constructor
        · intro kb hkb
          simp only [addPoint, if_neg h] at hkb
          rcases List.mem_cons.mp hkb with rfl | hmem
          · exact hgood kb (List.mem_cons_self kb rest)
          · exact ihres.1 kb hmem
        · simp only [addPoint, if_neg h, List.map_cons]
          rw [List.nodup_cons]
          refine ⟨?_, ihres.2⟩
          intro habs
          rcases addPoint_keys key rest p kb0.1 habs with h1 | h1
          · exact hnd.1 h1
          · exact h h1

theorem addPoint_mem {K : Type} [DecidableEq K] (key : Node → K) :
    ∀ (acc : List (K × List Node)) (p q : Node),
      (∃ kb ∈ addPoint key acc p, q ∈ kb.2) ↔ (∃ kb ∈ acc, q ∈ kb.2) ∨ q = p := by
  intro acc
  induction acc with
  | nil =>
      intro p q
      simp [addPoint]
  | cons kb0 rest ih =>
      intro p q
      by_cases h : kb0.1 = key p
      · simp only [addPoint, if_pos h]
        constructor
        · rintro ⟨kb, hkb, hq⟩
          rcases List.mem_cons.mp hkb with rfl | hmem
          · rcases List.mem_append.mp hq with h1 | h1
            · exact Or.inl ⟨kb0, List.mem_cons_self _ _, h1⟩
            · rcases List.mem_cons.mp h1 with rfl | h2
              · exact Or.inr rfl
              · exact absurd h2 (List.not_mem_nil q)
          · exact Or.inl ⟨kb, List.mem_cons_of_mem _ hmem, hq⟩
        · rintro (⟨kb, hkb, hq⟩ | rfl)
          · rcases List.mem_cons.mp hkb with rfl | hmem
            · exact ⟨(kb.1, kb.2 ++ [p]), List.mem_cons_self _ _,
                List.mem_append.mpr (Or.inl hq)⟩
            · exact ⟨kb, List.mem_cons_of_mem _ hmem, hq⟩
          · exact ⟨(kb0.1, kb0.2 ++ [q]), List.mem_cons_self _ _,
              List.mem_append.mpr (Or.inr (List.mem_cons_self q []))⟩
      · simp only [addPoint, if_neg h]
        constructor
        · rintro ⟨kb, hkb, hq⟩
          rcases List.mem_cons.mp hkb with rfl | hmem
          · exact Or.inl ⟨kb, List.mem_cons_self _ _, hq⟩
          · rcases (ih p q).mp ⟨kb, hmem, hq⟩ with h1 | h1
            · obtain ⟨kb2, hkb2, hq2⟩ := h1
              exact Or.inl ⟨kb2, List.mem_cons_of_mem _ hkb2, hq2⟩
            · exact Or.inr h1
        · rintro (⟨kb, hkb, hq⟩ | rfl)
          · rcases List.mem_cons.mp hkb with rfl | hmem
            · exact ⟨kb, List.mem_cons_self _ _, hq⟩
            · obtain ⟨kb2, hkb2, hq2⟩ := (ih p q).mpr (Or.inl ⟨kb, hmem, hq⟩)
              exact ⟨kb2, List.mem_cons_of_mem _ hkb2, hq2⟩
          · obtain ⟨kb2, hkb2, hq2⟩ := (ih q q).mpr (Or.inr rfl)
            exact ⟨kb2, List.mem_cons_of_mem _ hkb2, hq2⟩

theorem hexbin_fold_good {K : Type} [DecidableEq K] (key : Node → K) :
    ∀ (points : List Node) (acc : List (K × List Node)),
      (∀ kb ∈ acc, kb.2 ≠ [] ∧ ∀ q ∈ kb.2, key q = kb.1) → (acc.map Prod.fst).Nodup →
      (∀ kb ∈ points.foldl (addPoint key) acc, kb.2 ≠ [] ∧ ∀ q ∈ kb.2, key q = kb.1)
        ∧ ((points.foldl (addPoint key) acc).map Prod.fst).Nodup := by
  intro points
  induction points with
  | nil => intro acc h1 h2; exact ⟨h1, h2⟩
  | cons p ps ih =>
      intro acc h1 h2
      rw [List.foldl_cons]
      obtain ⟨g1, g2⟩ := addPoint_good key acc p h1 h2
      exact ih (addPoint key acc p) g1 g2

theorem hexbin_fold_mem {K : Type} [DecidableEq K] (key : Node → K) :
    ∀ (points : List Node) (acc : List (K × List Node)) (q : Node),
      (∃ kb ∈ points.foldl (addPoint key) acc, q ∈ kb.2)
        ↔ (∃ kb ∈ acc, q ∈ kb.2) ∨ q ∈ points := by
  intro points
  induction points with
  | nil =>
      intro acc q
      simp
  | cons p ps ih =>
      intro acc q
      rw [List.foldl_cons, ih (addPoint key acc p) q, addPoint_mem key acc p q]
      constructor
      · rintro ((h | rfl) | h)
        · exact Or.inl h
        · exact Or.inr (List.mem_cons_self _ _)
        · exact Or.inr (List.mem_cons_of_mem _ h)
      · rintro (h | h)
        · exact Or.inl (Or.inl h)
        · rcases List.mem_cons.mp h with rfl | h2
          · exact Or.inl (Or.inr rfl)
          · exact Or.inr h2

theorem nodup_fst_ext {K β : Type} :
    ∀ (l : List (K × β)) (kb kb2 : K × β),
      (l.map Prod.fst).Nodup → kb ∈ l → kb2 ∈ l → kb.1 = kb2.1 → kb = kb2 := by
  intro l
  induction l with
  | nil => intro kb kb2 _ h; exact absurd h (List.not_mem_nil kb)
  | cons a l ih =>
      intro kb kb2 hnd hkb hkb2 heq
      rw [List.map_cons, List.nodup_cons] at hnd
      rcases List.mem_cons.mp hkb with rfl | h1
      · rcases List.mem_cons.mp hkb2 with rfl | h2
        · rfl
        · have hm := List.mem_map_of_mem Prod.fst h2
          rw [← heq] at hm
          exact absurd hm hnd.1
      · rcases List.mem_cons.mp hkb2 with rfl | h2
        · have hm := List.mem_map_of_mem Prod.fst h1
          rw [heq] at hm
          exact absurd hm hnd.1
        · exact ih kb kb2 hnd.2 h1 h2 heq

/-! ### Dependency-graph link helpers -/

theorem sum_single_le (f : Nat → Nat) (i bound : Nat) :
    ∀ (L : List Nat), (∀ a ∈ L, a ≠ i → f a = 0) → List.count i L ≤ 1 → f i ≤ bound →
      (L.map f).sum ≤ bound := by
  intro L
  induction L with
  | nil => intro _ _ _; simp
  | cons a L ih =>
      intro hz hc hb
      rw [List.map_cons, List.sum_cons]
      by_cases ha : a = i
      · subst ha
        have hcs : List.count a (a :: L) = List.count a L + 1 := List.count_cons_self a L
        have hcount : List.count a L = 0 := by omega
        have hnotmem : a ∉ L := List.count_eq_zero.mp hcount
        have hrest : (L.map f).sum = 0 := by
          apply List.sum_eq_zero
          intro x hx
          obtain ⟨b, hbL, rfl⟩ := List.mem_map.mp hx
          apply hz b (List.mem_cons_of_mem _ hbL)
          intro hbi
          exact hnotmem (hbi ▸ hbL)
        rw [hrest]
        omega
      · rw [hz a (List.mem_cons_self a L) ha, Nat.zero_add]
        apply ih
        · exact fun b hbL hbi => hz b (List.mem_cons_of_mem _ hbL) hbi
        · have hcc : List.count i (a :: L) = List.count i L :=
            List.count_cons_of_ne (fun hia => ha hia.symm) L
          omega
        · exact hb

theorem source_linksFrom (i : Nat) (c : Fin 3) (t : Nat → Nat) (v : Nat → ℚ) :
    ∀ l ∈ linksFrom i c t v, l.source = "node-" ++ toString i := by
  intro l hl
  unfold linksFrom at hl
  obtain ⟨j, hj, hsome⟩ := List.mem_filterMap.mp hl
  by_cases h : t j ≠ i
  · rw [if_pos h] at hsome
    cases hsome
    rfl
  · rw [if_neg h] at hsome
    exact Option.noConfusion hsome

theorem length_filter_linksFrom_le (i : Nat) (c : Fin 3) (t : Nat → Nat) (v : Nat → ℚ)
    (p : GraphLink → Bool) :
    ((linksFrom i c t v).filter p).length ≤ c.val + 1 := by
  calc ((linksFrom i c t v).filter p).length
      ≤ (linksFrom i c t v).length := List.length_filter_le _ _
    _ ≤ (List.range (c.val + 1)).length := List.length_filterMap_le _ _
    _ = c.val + 1 := List.length_range _

theorem filter_source_linksFrom_ne (i a : Nat) (c : Fin 3) (t : Nat → Nat) (v : Nat → ℚ)
    (hne : ("node-" ++ toString a : String) ≠ "node-" ++ toString i) :
    (linksFrom a c t v).filter (fun l => l.source == "node-" ++ toString i) = [] := by
  apply List.filter_eq_nil_iff.mpr
  intro l hl
  rw [source_linksFrom a c t v l hl]
  simp [hne]

/-! ### Per-day scaling arithmetic -/

theorem currentTotal_eq : currentTotal = 1422 := rfl

theorem scaledCountN_568_12 : scaledCountN 568 (12 : Fin 46) = 568 := by
  have h1 : scaledCount 568 (12 : Fin 46) = 568 := by
    unfold scaledCount roundHalfUp scaleFactor totalNodesForDate
    rw [currentTotal_eq]
    have hv : ((12 : Fin 46).val) = 12 := rfl
    rw [hv]
    have harg : ((568 : ℕ) : ℚ) * (((1410 + 12 : ℕ) : ℚ) / ((1422 : ℕ) : ℚ)) + 1 / 2
        = 1137 / 2 := by
      push_cast
      norm_num
    rw [harg]
    apply Int.floor_eq_iff.mpr
    constructor <;> norm_num
  unfold scaledCountN
  rw [h1]
  rfl

/-! ### Membership of a concrete asset in a generator run -/

theorem mem_generateNodes_prod0 (date : String) (dates : List String) (hd : date ∈ dates)
    (t : String → Fin 46) (dr : String → String → Nat → AssetDraws)
    (ht : t date = (12 : Fin 46)) :
    mkNode ("Production") date (mkRat 8 100) 0 (dr date ("Production") 0)
      ∈ generateNodes dates t dr := by
  unfold generateNodes
  apply List.mem_flatMap.mpr
  refine ⟨date, hd, ?_⟩
  apply List.mem_flatMap.mpr
  refine ⟨("Production", 568, mkRat 8 100), List.mem_cons_self _ _, ?_⟩
  unfold genGroupAssets
  apply List.mem_map.mpr
  refine ⟨0, ?_, rfl⟩
  apply List.mem_range.mpr
  rw [ht, scaledCountN_568_12]
  omega

/-! ### The claims -/

/-- C1: for every asset produced by the synthetic data generator, if the
asset is anomalous then its number of processes with status different from
OK is between 1 and 9 inclusive, and if it is not anomalous then it has
zero non-OK processes. -/
theorem claim1_anomaly_nonOk_counts (dates : List String) (t : String → Fin 46)
    (dr : String → String → Nat → AssetDraws) (node : Node)
    (h : node ∈ generateNodes dates t dr) :
    (node.hasAnomaly = true → 1 ≤ nonOkCount node ∧ nonOkCount node ≤ 9)
      ∧ (node.hasAnomaly = false → nonOkCount node = 0) := by
  unfold generateNodes at h
  obtain ⟨date, _, h⟩ := List.mem_flatMap.mp h
  obtain ⟨g, _, h⟩ := List.mem_flatMap.mp h
  unfold genGroupAssets at h
  obtain ⟨i, _, rfl⟩ := List.mem_map.mp h
  constructor
  · intro ha
    rw [nonOkCount_mkNode, ha]
    have he : problematicCountOf true (dr date g.1 i).pdraw
        = (dr date g.1 i).pdraw.val + 1 := rfl
    rw [he]
    have := (dr date g.1 i).pdraw.isLt
    omega
  · intro ha
    rw [nonOkCount_mkNode, ha]
    rfl

/-- Witness for C1: a concrete one-date generator run containing the
index-0 Production asset generated from the draw bundle `draws0`. -/
theorem claim1_witness :
    (mkNode ("Production") ("2024-01-01") (mkRat 8 100) 0 draws0
        ∈ generateNodes ["2024-01-01"] (fun _ => (12 : Fin 46)) (fun _ _ _ => draws0))
      ∧ ((mkNode ("Production") ("2024-01-01") (mkRat 8 100) 0 draws0).hasAnomaly = true →
          1 ≤ nonOkCount (mkNode ("Production") ("2024-01-01") (mkRat 8 100) 0 draws0)
            ∧ nonOkCount (mkNode ("Production") ("2024-01-01") (mkRat 8 100) 0 draws0) ≤ 9)
      ∧ ((mkNode ("Production") ("2024-01-01") (mkRat 8 100) 0 draws0).hasAnomaly = false →
          nonOkCount (mkNode ("Production") ("2024-01-01") (mkRat 8 100) 0 draws0) = 0) := by
  have hmem := mem_generateNodes_prod0 ("2024-01-01") ["2024-01-01"]
    (List.mem_cons_self _ _) (fun _ => (12 : Fin 46)) (fun _ _ _ => draws0) rfl
  have hc := claim1_anomaly_nonOk_counts ["2024-01-01"] (fun _ => (12 : Fin 46))
    (fun _ _ _ => draws0) _ hmem
  exact ⟨hmem, hc.1, hc.2⟩

/-- C2: clicking a hex cell with at least one member selects exactly the
first member, in the cell's iteration order, whose count of non-OK
processes is maximal (strict-greater comparison in the reduce keeps the
earliest maximum). -/
theorem claim2_click_selects_first_max (s : UIState) (bin : List Node) (h : bin ≠ []) :
    (onHexClick s bin h).selectedNode = firstMemberWithMaxIssues bin := by
  cases bin with
  | nil => exact absurd rfl h
  | cons a l =>
      show some (nodeWithMostIssues (a :: l) h) = firstMemberWithMaxIssues (a :: l)
      unfold nodeWithMostIssues firstMemberWithMaxIssues maxNonOkCount
      rw [List.head_cons, List.foldl_cons, if_neg (lt_irrefl (nonOkCount a))]
      exact (foldl_pick_max nonOkCount l a).symm

/-- Witness for C2 on a concrete two-member bin (an anomalous and a
healthy asset). -/
theorem claim2_witness :
    (([cxBinA, cxBinB] : List Node) ≠ [])
      ∧ (onHexClick s0 [cxBinA, cxBinB] (List.cons_ne_nil cxBinA [cxBinB])).selectedNode
          = firstMemberWithMaxIssues [cxBinA, cxBinB] :=
  ⟨List.cons_ne_nil cxBinA [cxBinB],
    claim2_click_selects_first_max s0 [cxBinA, cxBinB] (List.cons_ne_nil cxBinA [cxBinB])⟩

/-- C9: every generated asset owns `max(processCount, problematicCount)`
processes, hence between 1 and 100; and an anomalous asset whose drawn
process count does not exceed its problematic count owns no OK process at
all. -/
theorem claim9_process_total_counts (tag date : String) (rate : ℚ) (i : Nat)
    (d : AssetDraws) :
    (mkNode tag date rate i d).properties.processes.length
        = max (d.cdraw.val + 1)
            (problematicCountOf ((mkNode tag date rate i d).hasAnomaly) d.pdraw)
      ∧ 1 ≤ (mkNode tag date rate i d).properties.processes.length
      ∧ (mkNode tag date rate i d).properties.processes.length ≤ 100
      ∧ ((mkNode tag date rate i d).hasAnomaly = true →
          d.cdraw.val + 1 ≤ problematicCountOf true d.pdraw →
          (mkNode tag date rate i d).properties.processes.filter
            (fun pr => pr.status == "OK") = []) := by
  have hL : (mkNode tag date rate i d).properties.processes.length
      = problematicCountOf (decide (d.adraw < rate)) d.pdraw
        + (d.cdraw.val + 1 - problematicCountOf (decide (d.adraw < rate)) d.pdraw) := by
    rw [processes_mkNode, length_nodeProcesses]
  have hpb : problematicCountOf (decide (d.adraw < rate)) d.pdraw ≤ 9 := by
    unfold problematicCountOf
    have := d.pdraw.isLt
    split <;> omega
  have hcb : d.cdraw.val + 1 ≤ 100 := by
    have := d.cdraw.isLt
    omega
  refine ⟨?_, ?_, ?_, ?_⟩
  · rw [hL, hasAnomaly_mkNode]
    rcases Nat.le_total (d.cdraw.val + 1)
        (problematicCountOf (decide (d.adraw < rate)) d.pdraw) with hcp | hcp
    · rw [Nat.max_eq_right hcp]
      omega
    · rw [Nat.max_eq_left hcp]
      omega
  · rw [hL]
    omega
  · rw [hL]
    omega
  · intro ha hle
    rw [hasAnomaly_mkNode] at ha
    rw [processes_mkNode, filter_ok_nodeProcesses, ha]
    have hz : (d.cdraw.val + 1) - problematicCountOf true d.pdraw = 0 := by omega
    rw [hz]
    rfl

/-- Witness for C9 at concrete draws: an anomalous asset drawing one
process and one problematic process owns exactly one process and no OK
process. -/
theorem claim9_witness :
    (mkNode ("T") ("D") 1 0 draws0).properties.processes.length = 1
      ∧ (mkNode ("T") ("D") 1 0 draws0).properties.processes.filter
          (fun pr => pr.status == "OK") = [] := by
  have h := claim9_process_total_counts ("T") ("D") 1 0 draws0
  refine ⟨?_, h.2.2.2 (by decide) (by decide)⟩
  rw [h.1]
  decide

/-- C8: in every generated anomalous asset the non-OK processes alternate
Error, Warning, Error, ... (the process at non-OK index j has status Error
for even j and Warning for odd j), and the auto-expand effect expands the
first non-OK process, which always has status Error. -/
theorem claim8_alternation_and_autoexpand (tag date : String) (rate : ℚ) (i : Nat)
    (d : AssetDraws) (h : (mkNode tag date rate i d).hasAnomaly = true) :
    (∀ j, j < nonOkCount (mkNode tag date rate i d) →
        (((mkNode tag date rate i d).properties.processes.filter
            (fun pr => pr.status != "OK")).getD j default).status
          = if j % 2 = 0 then "Error" else "Warning")
      ∧ ∃ p, (mkNode tag date rate i d).properties.processes.find?
            (fun pr => pr.status != "OK") = some p
          ∧ p.status = "Error"
          ∧ ∀ prev, applyAutoExpand (some (mkNode tag date rate i d)) prev = some p.id := by
  have hdec : decide (d.adraw < rate) = true := by
    rw [← hasAnomaly_mkNode tag date rate i d]
    exact h
  have hp : problematicCountOf (decide (d.adraw < rate)) d.pdraw = d.pdraw.val + 1 := by
    rw [hdec]
    rfl
  have hfind : (mkNode tag date rate i d).properties.processes.find?
      (fun pr => pr.status != "OK")
        = some (mkProcess tag i 0 ("Error") (d.gdraw 0) (d.wdraw 0)) := by
    rw [processes_mkNode, hp]
    exact find?_nonOk_nodeProcesses tag i _ _ _ _ (by omega)
  constructor
  · intro j hj
    rw [nonOkCount_mkNode, hasAnomaly_mkNode, hp] at hj
    rw [processes_mkNode, hp, filter_nonOk_nodeProcesses]
    rw [List.getD_eq_getElem?_getD, List.getElem?_map, List.getElem?_range hj]
    show (mkProcess tag i j (problematicStatus j) (d.gdraw j) (d.wdraw j)).status
      = if j % 2 = 0 then "Error" else "Warning"
    rfl
  · refine ⟨mkProcess tag i 0 ("Error") (d.gdraw 0) (d.wdraw 0), hfind, rfl, ?_⟩
    intro prev
    simp only [applyAutoExpand]
    rw [if_pos h, hfind]

/-- Witness for C8 at concrete draws: the single non-OK process of an
anomalous asset is found, has status Error, and is the one auto-expanded. -/
theorem claim8_witness :
    ((mkNode ("T") ("D") 1 0 draws0).hasAnomaly = true)
      ∧ ∃ p, (mkNode ("T") ("D") 1 0 draws0).properties.processes.find?
            (fun pr => pr.status != "OK") = some p
          ∧ p.status = "Error"
          ∧ applyAutoExpand (some (mkNode ("T") ("D") 1 0 draws0)) none = some p.id := by
  have h : (mkNode ("T") ("D") 1 0 draws0).hasAnomaly = true := by decide
  have hc := claim8_alternation_and_autoexpand ("T") ("D") 1 0 draws0 h
  obtain ⟨p, h1, h2, h3⟩ := hc.2
  exact ⟨h, p, h1, h2, h3 none⟩

/-- C5 (amended): within every generated asset, process ids are pairwise
distinct, and every process id carries its owning asset's environment tag
and loop index (the same index that appears in the asset's own id).  The
original claim's uniqueness across assets sharing only tag and index fails
between dates, see the counterexample. -/
theorem claim5_amended_ids_unique_per_asset (dates : List String) (t : String → Fin 46)
    (dr : String → String → Nat → AssetDraws) (node : Node)
    (h : node ∈ generateNodes dates t dr) :
    ((node.properties.processes.map (fun pr => pr.id)).Nodup)
      ∧ ∃ i : Nat, node.id = node.tag ++ "-" ++ node.date ++ "-" ++ toString i
          ∧ ∀ pr ∈ node.properties.processes, ∃ j : Nat, pr.id = procId node.tag i j := by
  unfold generateNodes at h
  obtain ⟨date, _, h⟩ := List.mem_flatMap.mp h
  obtain ⟨g, _, h⟩ := List.mem_flatMap.mp h
  unfold genGroupAssets at h
  obtain ⟨i, _, rfl⟩ := List.mem_map.mp h
  constructor
  · rw [processes_mkNode]
    apply nodup_ids_nodeProcesses
    · unfold problematicCountOf
      have := (dr date g.1 i).pdraw.isLt
      split <;> omega
    · have := (dr date g.1 i).cdraw.isLt
      omega
  · refine ⟨i, rfl, ?_⟩
    intro pr hpr
    rw [processes_mkNode] at hpr
    unfold nodeProcesses at hpr
    rcases List.mem_append.mp hpr with h1 | h1
    · obtain ⟨j, _, rfl⟩ := List.mem_map.mp h1
      exact ⟨j, rfl⟩
    · obtain ⟨j, _, rfl⟩ := List.mem_map.mp h1
      exact ⟨j, rfl⟩

/-- Witness for C5 (amended) at the concrete one-date run of the C1
witness. -/
theorem claim5_witness :
    (mkNode ("Production") ("2024-01-01") (mkRat 8 100) 0 draws0
        ∈ generateNodes ["2024-01-01"] (fun _ => (12 : Fin 46)) (fun _ _ _ => draws0))
      ∧ ((List.map (fun pr => pr.id)
          (mkNode ("Production") ("2024-01-01") (mkRat 8 100) 0 draws0).properties.processes).Nodup) := by
  have hmem := mem_generateNodes_prod0 ("2024-01-01") ["2024-01-01"]
    (List.mem_cons_self _ _) (fun _ => (12 : Fin 46)) (fun _ _ _ => draws0) rfl
  exact ⟨hmem, (claim5_amended_ids_unique_per_asset ["2024-01-01"] (fun _ => (12 : Fin 46))
    (fun _ _ _ => draws0) _ hmem).1⟩

/-- C5 counterexample: two distinct processes (they even differ in weight),
owned by two distinct generated assets that share the environment tag
Production and the asset index 0 but live on different dates, carry the
same id string, refuting id uniqueness within tag and asset index. -/
theorem claim5_counterexample :
    cxA1 ∈ generateNodes ["2024-01-01", "2024-01-02"] (fun _ => (12 : Fin 46)) cxDr
      ∧ cxA2 ∈ generateNodes ["2024-01-01", "2024-01-02"] (fun _ => (12 : Fin 46)) cxDr
      ∧ cxA1.tag = cxA2.tag
      ∧ cxA1 ≠ cxA2
      ∧ cxP1 ∈ cxA1.properties.processes
      ∧ cxP2 ∈ cxA2.properties.processes
      ∧ cxP1 ≠ cxP2
      ∧ cxP1.id = cxP2.id := by
  refine ⟨?_, ?_, rfl, by decide, by decide, by decide, by decide, rfl⟩
  · have hm := mem_generateNodes_prod0 ("2024-01-01") ["2024-01-01", "2024-01-02"]
      (List.mem_cons_self _ _) (fun _ => (12 : Fin 46)) cxDr rfl
    have e : mkNode ("Production") ("2024-01-01") (mkRat 8 100) 0
        (cxDr ("2024-01-01") ("Production") 0) = cxA1 := rfl
    rw [e] at hm
    exact hm
  · have hm := mem_generateNodes_prod0 ("2024-01-02") ["2024-01-01", "2024-01-02"]
      (List.mem_cons_of_mem _ (List.mem_cons_self _ _)) (fun _ => (12 : Fin 46)) cxDr rfl
    have e : mkNode ("Production") ("2024-01-02") (mkRat 8 100) 0
        (cxDr ("2024-01-02") ("Production") 0) = cxA2 := rfl
    rw [e] at hm
    exact hm

/-- C3 (code bug): the declutter update loop looks nodes up by comparing
post-simulation coordinates with the pre-simulation coordinates stored in
the node array, so when the simulation has moved a node the lookup misses
and neither the position update nor the clamp happens: in a 200 by 200
viewport, an anomalous asset left at x = 16 stays at x = 16, outside
[60, 140]. -/
theorem claim3_clamp_missed :
    updateFromSim 200 200 [cxNode1] [cxSim] = [cxNode1]
      ∧ ¬ (collisionRadius cxNode1.hasAnomaly ≤ cxNode1.x) := by
  constructor
  · decide
  · decide

/-- C6 counterexample: after a date-filter change the previously selected
asset is absent from the filtered set, yet the selection still holds it
(it does not return to idle). -/
theorem claim6_counterexample :
    cxA1 ∈ filteredData cxState
      ∧ cxA1 ∉ filteredData (onDateChange cxState ("2024-01-02"))
      ∧ (onDateChange cxState ("2024-01-02")).selectedNode = some cxA1 := by
  refine ⟨by decide, by decide, rfl⟩

/-- C6 (amended): changing the date filter never modifies the selection
state: the selected asset, the expanded process and the node collection are
preserved unconditionally, whether or not the selected asset is in the new
filtered set; only the current date changes. -/
theorem claim6_amended_selection_preserved (s : UIState) (d : String) :
    (onDateChange s d).selectedNode = s.selectedNode
      ∧ (onDateChange s d).expandedProcess = s.expandedProcess
      ∧ (onDateChange s d).nodes = s.nodes
      ∧ (onDateChange s d).currentDate = d :=
  ⟨rfl, rfl, rfl, rfl⟩

/-- C7 counterexample: with draws whose every target index is 0, the
15-node dependency graph gives node 0 zero outgoing edges (its only
attempted edge targets itself and is dropped), refuting the claimed lower
bound of 1. -/
theorem claim7_counterexample :
    graphNodeCount 0 = 15
      ∧ outDegree (graphLinks 0 (fun _ => 0) (fun _ _ => 0) (fun _ _ => 0)) 0 = 0 := by
  exact ⟨rfl, by decide⟩

/-- C7 (amended): every expansion generates a graph with 15 to 20 nodes;
each node attempts between 1 and 3 outgoing edges and ends up with at most
that many (0 is possible when attempts hit the node itself); and the
generated data is independent of the expanded process (and hence of its
stored connections field). -/
theorem claim7_amended_graph_bounds (nd : Fin 6) (c : Nat → Fin 3) (t : Nat → Nat → Nat)
    (v : Nat → Nat → ℚ) (r1 r2 : Nat → ℚ) (g : Nat → Fin 5) (i : Nat)
    (hi : i < graphNodeCount nd) (pid pid2 : String) :
    15 ≤ graphNodeCount nd ∧ graphNodeCount nd ≤ 20
      ∧ (graphNodes nd r1 r2 g).length = graphNodeCount nd
      ∧ outDegree (graphLinks nd c t v) i ≤ (c i).val + 1
      ∧ (c i).val + 1 ≤ 3
      ∧ renderProcessGraphData pid nd r1 r2 g c t v
          = renderProcessGraphData pid2 nd r1 r2 g c t v := by
  have hnc : graphNodeCount nd ≤ 20 := by
    unfold graphNodeCount
    have := nd.isLt
    omega
  refine ⟨by unfold graphNodeCount; omega, hnc, ?_, ?_, ?_, rfl⟩
  · unfold graphNodes
    rw [List.length_map, List.length_range]
  · unfold outDegree graphLinks
    rw [List.filter_flatMap, List.length_flatMap]
    simp only [Function.comp_def]
    apply sum_single_le
    · intro a ha hane
      have ha2 : a < 100 := by
        have := lt_of_lt_of_le (List.mem_range.mp ha) hnc
        omega
      have hi2 : i < 100 := by
        have := lt_of_lt_of_le hi hnc
        omega
      have hsne : ("node-" ++ toString a : String) ≠ "node-" ++ toString i := by
        intro he
        exact hane (natToString_injOn100 a ha2 i hi2 (string_append_left_cancel he))
      rw [filter_source_linksFrom_ne i a (c a) (t a) (v a) hsne]
      rfl
    · exact List.nodup_iff_count_le_one.mp (List.nodup_range _) i
    · exact length_filter_linksFrom_le i (c i) (t i) (v i) _
  · have := (c i).isLt
    omega

/-- Witness for C7 (amended) at concrete draws. -/
theorem claim7_witness :
    (0 < graphNodeCount 0)
      ∧ (15 ≤ graphNodeCount 0 ∧ graphNodeCount 0 ≤ 20
          ∧ (graphNodes 0 (fun _ => 0) (fun _ => 0) (fun _ => 0)).length = graphNodeCount 0
          ∧ outDegree (graphLinks 0 (fun _ => 0) (fun _ _ => 0) (fun _ _ => 0)) 0
              ≤ ((fun _ : Nat => (0 : Fin 3)) 0).val + 1
          ∧ ((fun _ : Nat => (0 : Fin 3)) 0).val + 1 ≤ 3
          ∧ renderProcessGraphData ("a") 0 (fun _ => 0) (fun _ => 0) (fun _ => 0)
              (fun _ => 0) (fun _ _ => 0) (fun _ _ => 0)
            = renderProcessGraphData ("b") 0 (fun _ => 0) (fun _ => 0) (fun _ => 0)
              (fun _ => 0) (fun _ _ => 0) (fun _ _ => 0)) :=
  ⟨by decide,
    claim7_amended_graph_bounds 0 (fun _ => 0) (fun _ _ => 0) (fun _ _ => 0)
      (fun _ => 0) (fun _ => 0) (fun _ => 0) 0 (by decide) ("a") ("b")⟩

/-- C4: the per-day total is 1410 + draw for a draw below 46, so it ranges
exactly over 1410..1455; and for every group the number of assets generated
on a date equals the rounded value of the group's baseline count times the
ratio of the day's total to the baseline sum 1422. -/
theorem claim4_per_date_scaling (t : Fin 46) :
    (1410 ≤ totalNodesForDate t ∧ totalNodesForDate t ≤ 1455)
      ∧ (∀ v : Nat, (1410 ≤ v ∧ v ≤ 1455) ↔ ∃ u : Fin 46, totalNodesForDate u = v)
      ∧ ∀ g ∈ groupsTable, ∀ (date : String) (dr : Nat → AssetDraws),
          (genGroupAssets g.1 date g.2.2 (scaledCountN g.2.1 t) dr).length
              = (scaledCount g.2.1 t).toNat
            ∧ scaledCount g.2.1 t
              = roundHalfUp ((g.2.1 : ℚ) * (totalNodesForDate t : ℚ) / 1422) := by
  refine ⟨?_, ?_, ?_⟩
  · unfold totalNodesForDate
    have := t.isLt
    omega
  · intro v
    constructor
    · rintro ⟨h1, h2⟩
      refine ⟨⟨v - 1410, by omega⟩, ?_⟩
      show 1410 + (v - 1410) = v
      omega
    · rintro ⟨u, rfl⟩
      unfold totalNodesForDate
      have := u.isLt
      omega
  · intro g _ date dr
    constructor
    · unfold genGroupAssets scaledCountN
      rw [List.length_map, List.length_range]
    · unfold scaledCount scaleFactor
      rw [currentTotal_eq]
      congr 1
      push_cast
      ring

/-- Witness for C4 at the Production group and the draw 12. -/
theorem claim4_witness :
    (("Production", 568, mkRat 8 100) ∈ groupsTable)
      ∧ (genGroupAssets ("Production") ("D") (mkRat 8 100)
            (scaledCountN 568 (12 : Fin 46)) (fun _ => draws0)).length
          = (scaledCount 568 (12 : Fin 46)).toNat
      ∧ scaledCount 568 (12 : Fin 46)
          = roundHalfUp ((568 : ℚ) * (totalNodesForDate (12 : Fin 46) : ℚ) / 1422) := by
  have h := (claim4_per_date_scaling (12 : Fin 46)).2.2 ("Production", 568, mkRat 8 100)
    (List.mem_cons_self _ _) ("D") (fun _ => draws0)
  exact ⟨List.mem_cons_self _ _, h.1, h.2⟩

/-- C10: for any cell-assignment function, the hexbin grouping puts every
point of the input into exactly one returned bin, every returned bin is
non-empty, an empty input yields no bins, and an empty filtered set makes
the asset counter display 0. -/
theorem claim10_partition {K : Type} [DecidableEq K] (key : Node → K)
    (points : List Node) (q : Node) (hq : q ∈ points) (s : UIState) :
    (∃ kb ∈ hexbinBins key points, q ∈ kb.2
        ∧ ∀ kb2 ∈ hexbinBins key points, q ∈ kb2.2 → kb2 = kb)
      ∧ (∀ kb ∈ hexbinBins key points, kb.2 ≠ [])
      ∧ hexbinBins key ([] : List Node) = []
      ∧ (filteredData s = [] → totalCountDisplay s = 0) := by
  have hgood := hexbin_fold_good key points []
    (by intro kb hk; exact absurd hk (List.not_mem_nil kb)) (by simp)
  obtain ⟨kb, hkb, hqkb⟩ := (hexbin_fold_mem key points [] q).mpr (Or.inr hq)
  refine ⟨⟨kb, hkb, hqkb, ?_⟩, fun kb2 h2 => (hgood.1 kb2 h2).1, rfl, ?_⟩
  · intro kb2 hkb2 hq2
    apply nodup_fst_ext _ kb2 kb hgood.2 hkb2 hkb
    rw [← (hgood.1 kb2 hkb2).2 q hq2, ← (hgood.1 kb hkb).2 q hqkb]
  · intro hf
    unfold totalCountDisplay
    rw [hf]
    rfl

/-- Witness for C10 at a one-point input and a constant cell function,
together with the empty filtered state. -/
theorem claim10_witness :
    (cxA1 ∈ [cxA1])
      ∧ (∃ kb ∈ hexbinBins (fun _ => (0 : Nat)) [cxA1], cxA1 ∈ kb.2
          ∧ ∀ kb2 ∈ hexbinBins (fun _ => (0 : Nat)) [cxA1], cxA1 ∈ kb2.2 → kb2 = kb)
      ∧ (filteredData s0 = [] → totalCountDisplay s0 = 0) := by
  have h := claim10_partition (fun _ => (0 : Nat)) [cxA1] cxA1 (List.mem_cons_self _ _) s0
  exact ⟨List.mem_cons_self _ _, h.1, h.2.2.2⟩
